import Mathlib

/-!
Shallow embedding of the runebook parallel-execution coordination core
(src-tauri/src/core/{types,ownership,coordination}.rs and
src-tauri/src/orchestrator/{coordinator,planner}.rs), together with
theorems settling the specification claims about it.

Rust `HashMap`s are modelled as association lists with first-match lookup
and replace-or-append insert; only lookup, insert, in-place update and
value iteration are used by the source, and none of the verified
properties depend on iteration order.  `chrono::DateTime<Utc>` timestamps
are modelled as `Nat`.  The tokio channel plumbing is not part of the
state machine: `process_coordination` is modelled as a function of the
list of drained messages.  Handlers keep their Rust `Result<(), String>`
shape as `Except String` over the successor state.
-/

set_option autoImplicit false

namespace Runebook

/-- Decidable equality for `Except`, so that concrete handler results can
be checked by `decide`. -/
instance {ε α : Type} [DecidableEq ε] [DecidableEq α] : DecidableEq (Except ε α) := fun x y =>
  match x, y with
  | .error a, .error b =>
    if h : a = b then isTrue (by rw [h]) else isFalse (fun hh => by cases hh; exact h rfl)
  | .ok a, .ok b =>
    if h : a = b then isTrue (by rw [h]) else isFalse (fun hh => by cases hh; exact h rfl)
  | .error _, .ok _ => isFalse (fun hh => by cases hh)
  | .ok _, .error _ => isFalse (fun hh => by cases hh)

/-- Association-list lookup: first entry whose key matches, mirroring
`HashMap::get`. -/
def Assoc.lookup {κ α : Type} [DecidableEq κ] (k : κ) : List (κ × α) → Option α
  | [] => none
  | e :: rest => if e.1 = k then some e.2 else Assoc.lookup k rest

/-- Association-list insert: replace the entry with the given key, or append,
mirroring `HashMap::insert`. -/
def Assoc.insert {κ α : Type} [DecidableEq κ] (k : κ) (v : α) : List (κ × α) → List (κ × α)
  | [] => [(k, v)]
  | e :: rest => if e.1 = k then (k, v) :: rest else e :: Assoc.insert k v rest

/-- In-place update of the value at a key when present, mirroring the
`HashMap::get_mut` + assignment pattern. -/
def Assoc.adjust {κ α : Type} [DecidableEq κ] (k : κ) (f : α → α) : List (κ × α) → List (κ × α)
  | [] => []
  | e :: rest => if e.1 = k then (e.1, f e.2) :: rest else e :: Assoc.adjust k f rest

/-- Agent identifier (src-tauri/src/core/types.rs, `AgentId`). -/
inductive AgentId where
  | Orchestrator
  | Agent1
  | Agent2
  | Agent3
  | Agent4
  | Agent5
  | Agent6
deriving DecidableEq

/-- Rust `Debug` rendering of an `AgentId`, as produced by the derived
`Debug` impl and used in the coordination-request error message. -/
def AgentId.debugName : AgentId → String
  | .Orchestrator => "Orchestrator"
  | .Agent1 => "Agent1"
  | .Agent2 => "Agent2"
  | .Agent3 => "Agent3"
  | .Agent4 => "Agent4"
  | .Agent5 => "Agent5"
  | .Agent6 => "Agent6"

/-- Agent execution status (src-tauri/src/core/types.rs, `AgentStatus`). -/
inductive AgentStatus where
  | Pending
  | Running
  | WaitingForDependency (dep : AgentId)
  | Completed
  | Failed (why : String)
deriving DecidableEq

/-- Task status (src-tauri/src/core/types.rs, `TaskStatus`). -/
inductive TaskStatus where
  | NotStarted
  | InProgress
  | Completed
  | Blocked (why : String)
deriving DecidableEq

/-- Task breakdown item (src-tauri/src/core/types.rs, `Task`). -/
structure Task where
  id : String
  description : String
  owner : AgentId
  dependencies : List AgentId
  status : TaskStatus
deriving DecidableEq

/-- Roadmap item (src-tauri/src/core/types.rs, `RoadmapItem`). -/
structure RoadmapItem where
  phase : String
  description : String
  agents : List AgentId
  dependencies : List String
deriving DecidableEq

/-- Interface stub (src-tauri/src/core/types.rs, `InterfaceStub`). -/
structure InterfaceStub where
  name : String
  module_path : String
  owner : AgentId
  signature : String
  description : String
deriving DecidableEq

/-- File ownership boundary (src-tauri/src/core/types.rs, `FileOwnership`). -/
structure FileOwnership where
  path : String
  owner : AgentId
  description : String
  shared : Bool
deriving DecidableEq

/-- API publication event (src-tauri/src/core/types.rs, `ApiPublished`);
the `chrono` timestamp is modelled as a `Nat`. -/
structure ApiPublished where
  agent : AgentId
  api_name : String
  interface_path : String
  version : String
  timestamp : Nat
deriving DecidableEq

/-- Coordination message (src-tauri/src/core/types.rs, `CoordinationMessage`). -/
inductive CoordinationMessage where
  | AgentReady (agent : AgentId)
  | ApiPublished (api : Runebook.ApiPublished)
  | TaskCompleted (agent : AgentId) (task_id : String)
  | CoordinationRequest (requester : AgentId) (target_agent : AgentId)
      (target_module : String) (why : String)
  | CoordinationResponse (request_id : String) (approved : Bool) (why : Option String)
  | StatusUpdate (agent : AgentId) (status : AgentStatus)
deriving DecidableEq

/-- Execution plan (src-tauri/src/core/types.rs, `ExecutionPlan`);
`created_at` is a `Nat`-modelled timestamp. -/
structure ExecutionPlan where
  roadmap : List RoadmapItem
  tasks : List Task
  interfaces : List InterfaceStub
  file_ownership : List FileOwnership
  created_at : Nat
deriving DecidableEq

/-- Ownership manager (src-tauri/src/core/ownership.rs, `OwnershipManager`);
the `ownership_map: HashMap<String, FileOwnership>` is an association list. -/
structure OwnershipManager where
  ownership_map : List (String × FileOwnership)
deriving DecidableEq

/-- `OwnershipManager::new`. -/
def OwnershipManager.new : OwnershipManager := ⟨[]⟩

/-- `OwnershipManager::register`: insert/overwrite keyed by path. -/
def OwnershipManager.register (m : OwnershipManager) (o : FileOwnership) : OwnershipManager :=
  ⟨Assoc.insert o.path o m.ownership_map⟩

/-- `OwnershipManager::can_modify`: owner match, or default allow when the
path is unregistered.  The `shared` disjunct is transcribed as written in
the source (`owner == agent || (shared && owner == agent)`). -/
def OwnershipManager.can_modify (m : OwnershipManager) (agent : AgentId) (path : String) : Bool :=
  match Assoc.lookup path m.ownership_map with
  | some ownership => ownership.owner == agent || (ownership.shared && ownership.owner == agent)
  | none => true

/-- `OwnershipManager::can_read`: always true in the source. -/
def OwnershipManager.can_read (m : OwnershipManager) (_agent : AgentId) (path : String) : Bool :=
  match Assoc.lookup path m.ownership_map with
  | some ownership => ownership.shared || true
  | none => true

/-- `OwnershipManager::get_owner`: pure lookup of the owning agent. -/
def OwnershipManager.get_owner (m : OwnershipManager) (path : String) : Option AgentId :=
  (Assoc.lookup path m.ownership_map).map FileOwnership.owner

/-- `OwnershipManager::get_agent_files`: all records owned by the agent. -/
def OwnershipManager.get_agent_files (m : OwnershipManager) (agent : AgentId) : List FileOwnership :=
  (m.ownership_map.map Prod.snd).filter (fun o => o.owner == agent)

/-- API registry (src-tauri/src/core/coordination.rs, `ApiRegistry`);
`apis: HashMap<String, ApiPublished>` keyed by `api_name`. -/
structure ApiRegistry where
  apis : List (String × ApiPublished)
deriving DecidableEq

/-- `ApiRegistry::new`. -/
def ApiRegistry.new : ApiRegistry := ⟨[]⟩

/-- `ApiRegistry::register`: insert/overwrite keyed by `api_name`. -/
def ApiRegistry.register (r : ApiRegistry) (api : ApiPublished) : ApiRegistry :=
  ⟨Assoc.insert api.api_name api r.apis⟩

/-- `ApiRegistry::is_published`. -/
def ApiRegistry.is_published (r : ApiRegistry) (api_name : String) : Bool :=
  (Assoc.lookup api_name r.apis).isSome

/-- `ApiRegistry::get_api`. -/
def ApiRegistry.get_api (r : ApiRegistry) (api_name : String) : Option ApiPublished :=
  Assoc.lookup api_name r.apis

/-- `ApiRegistry::get_agent_apis`: all records whose `agent` field matches. -/
def ApiRegistry.get_agent_apis (r : ApiRegistry) (agent : AgentId) : List ApiPublished :=
  (r.apis.map Prod.snd).filter (fun api => api.agent == agent)

/-- Execution coordinator state (src-tauri/src/orchestrator/coordinator.rs,
`ExecutionCoordinator`).  The channel receiver and handle carry no
coordination state and are omitted: `process_coordination` takes the list
of drained messages instead. -/
structure ExecutionCoordinator where
  plan : ExecutionPlan
  ownership : OwnershipManager
  api_registry : ApiRegistry
  agent_status : List (AgentId × AgentStatus)
deriving DecidableEq

/-- The agent-status map built by `ExecutionCoordinator::new`, insertion
for insertion. -/
def initial_agent_status : List (AgentId × AgentStatus) :=
  Assoc.insert AgentId.Agent6 AgentStatus.Pending
    (Assoc.insert AgentId.Agent5 AgentStatus.Pending
      (Assoc.insert AgentId.Agent4 (AgentStatus.WaitingForDependency AgentId.Agent3)
        (Assoc.insert AgentId.Agent3 (AgentStatus.WaitingForDependency AgentId.Agent2)
          (Assoc.insert AgentId.Agent2 AgentStatus.Pending
            (Assoc.insert AgentId.Agent1 AgentStatus.Pending
              (Assoc.insert AgentId.Orchestrator AgentStatus.Running []))))))

/-- `ExecutionCoordinator::new`: register every plan ownership record and
seed the status map (the returned channel handle is omitted). -/
def ExecutionCoordinator.new (plan : ExecutionPlan) : ExecutionCoordinator :=
  { plan := plan
    ownership := plan.file_ownership.foldl OwnershipManager.register OwnershipManager.new
    api_registry := ApiRegistry.new
    agent_status := initial_agent_status }

/-- `ExecutionCoordinator::can_agent_start`. -/
def ExecutionCoordinator.can_agent_start (c : ExecutionCoordinator) (agent : AgentId) : Bool :=
  match agent with
  | .Orchestrator => true
  | .Agent1 | .Agent2 | .Agent5 | .Agent6 =>
    match Assoc.lookup AgentId.Orchestrator c.agent_status with
    | some AgentStatus.Running => true
    | some AgentStatus.Completed => true
    | some _ => false
    | none => false
  | .Agent3 => decide ((c.api_registry.get_agent_apis AgentId.Agent2).length > 0)
  | .Agent4 =>
    c.plan.tasks.any (fun t => t.id == "agent3-2" && t.status == TaskStatus.Completed)

/-- `ExecutionCoordinator::get_blocking_dependency`. -/
def ExecutionCoordinator.get_blocking_dependency (_c : ExecutionCoordinator) : AgentId → AgentId
  | .Agent3 => .Agent2
  | .Agent4 => .Agent3
  | _ => .Orchestrator

/-- `ExecutionCoordinator::handle_agent_ready`. -/
def ExecutionCoordinator.handle_agent_ready (c : ExecutionCoordinator) (agent : AgentId) :
    Except String ExecutionCoordinator :=
  if c.can_agent_start agent then
    .ok { c with agent_status := Assoc.insert agent AgentStatus.Running c.agent_status }
  else
    .ok { c with agent_status :=
      (Assoc.insert agent (AgentStatus.WaitingForDependency (c.get_blocking_dependency agent))
        c.agent_status) }

/-- `ExecutionCoordinator::handle_api_published`: register the record, then
flip Agent3 from `WaitingForDependency(Agent2)` to `Pending` when the
publisher is Agent2. -/
def ExecutionCoordinator.handle_api_published (c : ExecutionCoordinator) (api : ApiPublished) :
    Except String ExecutionCoordinator :=
  let registry := c.api_registry.register api
  let status :=
    if api.agent == AgentId.Agent2 then
      Assoc.adjust AgentId.Agent3
        (fun st =>
          if st == AgentStatus.WaitingForDependency AgentId.Agent2 then AgentStatus.Pending
          else st)
        c.agent_status
    else c.agent_status
  .ok { c with api_registry := registry, agent_status := status }

/-- The `iter_mut().find(|t| t.id == task_id)` + `task.status = Completed`
step of `handle_task_completed`: complete the first task with the given id. -/
def set_task_completed (task_id : String) : List Task → List Task
  | [] => []
  | t :: rest =>
    if t.id == task_id then { t with status := TaskStatus.Completed } :: rest
    else t :: set_task_completed task_id rest

/-- `ExecutionCoordinator::handle_task_completed`: mark the task completed
when present, then flip Agent4 from `WaitingForDependency(Agent3)` to
`Pending` when Agent3 reports task "agent3-2". -/
def ExecutionCoordinator.handle_task_completed (c : ExecutionCoordinator) (agent : AgentId)
    (task_id : String) : Except String ExecutionCoordinator :=
  let tasks := set_task_completed task_id c.plan.tasks
  let status :=
    if agent == AgentId.Agent3 && task_id == "agent3-2" then
      Assoc.adjust AgentId.Agent4
        (fun st =>
          if st == AgentStatus.WaitingForDependency AgentId.Agent3 then AgentStatus.Pending
          else st)
        c.agent_status
    else c.agent_status
  .ok { c with plan := { c.plan with tasks := tasks }, agent_status := status }

/-- `ExecutionCoordinator::handle_coordination_request`: self-owned targets
are a no-op; a registered target owned by someone else fails the ownership
check and errors; unregistered targets are accepted. -/
def ExecutionCoordinator.handle_coordination_request (c : ExecutionCoordinator)
    (requester _target_agent : AgentId) (target_module _why : String) :
    Except String ExecutionCoordinator :=
  match c.ownership.get_owner target_module with
  | some owner =>
    if owner == requester then .ok c
    else if !(c.ownership.can_modify requester target_module) then
      .error ("Agent " ++ owner.debugName ++ " does not own module " ++ target_module)
    else .ok c
  | none => .ok c

/-- One iteration of the `process_coordination` drain loop: dispatch a
single drained message. -/
def ExecutionCoordinator.process_message (c : ExecutionCoordinator) :
    CoordinationMessage → Except String ExecutionCoordinator
  | .AgentReady agent => c.handle_agent_ready agent
  | .ApiPublished api => c.handle_api_published api
  | .TaskCompleted agent task_id => c.handle_task_completed agent task_id
  | .CoordinationRequest requester target_agent target_module why =>
    c.handle_coordination_request requester target_agent target_module why
  | .CoordinationResponse _ _ _ => .ok c
  | .StatusUpdate agent status =>
    .ok { c with agent_status := Assoc.insert agent status c.agent_status }

/-- `ExecutionCoordinator::process_coordination` over the list of messages
drained from the channel; the `?` on each handler aborts the pass. -/
def ExecutionCoordinator.process_coordination (c : ExecutionCoordinator) :
    List CoordinationMessage → Except String ExecutionCoordinator
  | [] => .ok c
  | msg :: rest =>
    match c.process_message msg with
    | .ok c' => c'.process_coordination rest
    | .error e => .error e

/-- `ExecutionCoordinator::get_agent_status`. -/
def ExecutionCoordinator.get_agent_status (c : ExecutionCoordinator) (agent : AgentId) :
    Option AgentStatus :=
  Assoc.lookup agent c.agent_status

/-- `ExecutionCoordinator::get_plan`. -/
def ExecutionCoordinator.get_plan (c : ExecutionCoordinator) : ExecutionPlan :=
  c.plan

/-- `create_roadmap` (src-tauri/src/orchestrator/planner.rs). -/
def create_roadmap : List RoadmapItem :=
  [ { phase := "phase-1-orchestration"
      description := "Orchestrator creates roadmap, task breakdown, stubs interfaces, assigns ownership"
      agents := [AgentId.Orchestrator]
      dependencies := [] }
  , { phase := "phase-2-parallel-agents"
      description := "Agent 1 (event capture) and Agent 2 (storage APIs) run in parallel"
      agents := [AgentId.Agent1, AgentId.Agent2]
      dependencies := ["phase-1-orchestration"] }
  , { phase := "phase-3-analysis"
      description := "Agent 3 (analysis pipeline) starts after Agent 2 publishes APIs"
      agents := [AgentId.Agent3]
      dependencies := ["phase-2-parallel-agents"] }
  , { phase := "phase-4-surfaces"
      description := "Agent 4 (surfaces) starts after Agent 3 writes suggestions to store"
      agents := [AgentId.Agent4]
      dependencies := ["phase-3-analysis"] }
  , { phase := "phase-5-continuous"
      description := "Agent 5 (nix + CI) and Agent 6 (finalization) run continuously"
      agents := [AgentId.Agent5, AgentId.Agent6]
      dependencies := ["phase-1-orchestration"] } ]

/-- `create_task_breakdown` (src-tauri/src/orchestrator/planner.rs). -/
def create_task_breakdown : List Task :=
  [ { id := "orch-1", description := "Create roadmap and task breakdown"
      owner := AgentId.Orchestrator, dependencies := [], status := TaskStatus.NotStarted }
  , { id := "orch-2", description := "Stub all interfaces"
      owner := AgentId.Orchestrator, dependencies := [], status := TaskStatus.NotStarted }
  , { id := "orch-3", description := "Assign file ownership boundaries"
      owner := AgentId.Orchestrator, dependencies := [], status := TaskStatus.NotStarted }
  , { id := "agent1-1", description := "Implement event capture system"
      owner := AgentId.Agent1, dependencies := [AgentId.Orchestrator]
      status := TaskStatus.NotStarted }
  , { id := "agent2-1", description := "Implement storage APIs"
      owner := AgentId.Agent2, dependencies := [AgentId.Orchestrator]
      status := TaskStatus.NotStarted }
  , { id := "agent2-2", description := "Publish storage API interface"
      owner := AgentId.Agent2, dependencies := [AgentId.Agent2]
      status := TaskStatus.NotStarted }
  , { id := "agent3-1", description := "Implement analysis pipeline"
      owner := AgentId.Agent3, dependencies := [AgentId.Agent2]
      status := TaskStatus.NotStarted }
  , { id := "agent3-2", description := "Write suggestions to store"
      owner := AgentId.Agent3, dependencies := [AgentId.Agent3]
      status := TaskStatus.NotStarted }
  , { id := "agent4-1", description := "Implement suggestion surfaces"
      owner := AgentId.Agent4, dependencies := [AgentId.Agent3]
      status := TaskStatus.NotStarted }
  , { id := "agent5-1", description := "Set up Nix scaffolding"
      owner := AgentId.Agent5, dependencies := [AgentId.Orchestrator]
      status := TaskStatus.NotStarted }
  , { id := "agent5-2", description := "Set up CI scaffolding"
      owner := AgentId.Agent5, dependencies := [AgentId.Orchestrator]
      status := TaskStatus.NotStarted }
  , { id := "agent6-1", description := "Finalize integration and testing"
      owner := AgentId.Agent6, dependencies := [AgentId.Orchestrator]
      status := TaskStatus.NotStarted } ]

/-- `create_interface_stubs` (src-tauri/src/orchestrator/planner.rs). -/
def create_interface_stubs : List InterfaceStub :=
  [ { name := "EventCapture", module_path := "src/lib/agent/capture.ts"
      owner := AgentId.Agent1
      signature := "captureCommandStart(command: string, args: string[], cwd: string): Promise<void>"
      description := "Capture command start event" }
  , { name := "EventCapture", module_path := "src/lib/agent/capture.ts"
      owner := AgentId.Agent1
      signature := "captureCommandResult(commandId: string, result: CommandResult): Promise<void>"
      description := "Capture command result event" }
  , { name := "StorageApi", module_path := "src-tauri/src/memory/api.rs"
      owner := AgentId.Agent2
      signature := "async fn append_event(event: MemoryEvent) -> Result<()>"
      description := "Append event to storage" }
  , { name := "StorageApi", module_path := "src-tauri/src/memory/api.rs"
      owner := AgentId.Agent2
      signature := "async fn list_sessions() -> Result<Vec<Session>>"
      description := "List all sessions" }
  , { name := "StorageApi", module_path := "src-tauri/src/memory/api.rs"
      owner := AgentId.Agent2
      signature := "async fn persist_suggestion(suggestion: Suggestion) -> Result<()>"
      description := "Persist suggestion to store" }
  , { name := "AnalysisPipeline", module_path := "src/lib/agent/analysis-pipeline.ts"
      owner := AgentId.Agent3
      signature := "enqueueFailure(commandId: string, events: TerminalObserverEvent[]): Promise<string | null>"
      description := "Enqueue command failure for analysis" }
  , { name := "SuggestionSurface", module_path := "src/lib/agent/surfaces.ts"
      owner := AgentId.Agent4
      signature := "displaySuggestion(suggestion: Suggestion): void"
      description := "Display suggestion on surface" } ]

/-- `create_file_ownership` (src-tauri/src/orchestrator/planner.rs). -/
def create_file_ownership : List FileOwnership :=
  [ { path := "src-tauri/src/core", owner := AgentId.Orchestrator
      description := "Shared types and coordination mechanisms", shared := true }
  , { path := "src/lib/agent/capture.ts", owner := AgentId.Agent1
      description := "Event capture implementation", shared := false }
  , { path := "src/lib/core/observer.ts", owner := AgentId.Agent1
      description := "Terminal observer core", shared := false }
  , { path := "src-tauri/src/memory", owner := AgentId.Agent2
      description := "Storage APIs and memory schema", shared := false }
  , { path := "src/lib/agent/analysis-pipeline.ts", owner := AgentId.Agent3
      description := "Analysis pipeline implementation", shared := false }
  , { path := "src/lib/agent/analysis-service.ts", owner := AgentId.Agent3
      description := "Analysis service", shared := false }
  , { path := "src/lib/agent/analyzers", owner := AgentId.Agent3
      description := "Analysis analyzers", shared := false }
  , { path := "src/lib/agent/surfaces.ts", owner := AgentId.Agent4
      description := "Suggestion surfaces implementation", shared := false }
  , { path := "integrations", owner := AgentId.Agent4
      description := "Integration surfaces (tmux, wezterm, vim, etc.)", shared := false }
  , { path := "flake.nix", owner := AgentId.Agent5
      description := "Nix flake configuration", shared := false }
  , { path := "shell.nix", owner := AgentId.Agent5
      description := "Nix shell environment", shared := false }
  , { path := ".github/workflows", owner := AgentId.Agent5
      description := "CI/CD workflows", shared := false }
  , { path := "ValidationChecklist.md", owner := AgentId.Agent6
      description := "Validation checklist updates", shared := false } ]

/-- `create_execution_plan` (src-tauri/src/orchestrator/planner.rs).  The
source stamps `created_at: chrono::Utc::now()`, a clock read; the shallow
embedding makes that read explicit by taking the current time as the
parameter `now`, so the dependence of the result on the clock is visible
in the type. -/
def create_execution_plan (now : Nat) : ExecutionPlan :=
  { roadmap := create_roadmap
    tasks := create_task_breakdown
    interfaces := create_interface_stubs
    file_ownership := create_file_ownership
    created_at := now }

/-- The coordinator state produced by `ExecutionCoordinator::new` on the
plan built by `create_execution_plan` (at model time 0). -/
def initial_coordinator : ExecutionCoordinator :=
  ExecutionCoordinator.new (create_execution_plan 0)

/-! Lemmas about the association-list map operations. -/

theorem Assoc.lookup_insert {κ α : Type} [DecidableEq κ] (k a : κ) (v : α)
    (l : List (κ × α)) :
    Assoc.lookup a (Assoc.insert k v l) = if k = a then some v else Assoc.lookup a l := by
  induction l with
  | nil => simp [Assoc.insert, Assoc.lookup]
  | cons e rest ih =>
    by_cases h1 : e.1 = k
    · by_cases h2 : k = a
      · simp [Assoc.insert, Assoc.lookup, h1, h2]
      · simp [Assoc.insert, Assoc.lookup, h1, h2, fun h => h2 (h1 ▸ h)]
    · by_cases h2 : e.1 = a
      · have h3 : ¬ k = a := fun h => h1 (h ▸ h2)
        have h4 : ¬ a = k := fun h => h3 h.symm
        simp [Assoc.insert, Assoc.lookup, h1, h2, h3, h4]
      · simp [Assoc.insert, Assoc.lookup, h1, h2, ih]

theorem Assoc.lookup_adjust {κ α : Type} [DecidableEq κ] (k a : κ) (f : α → α)
    (l : List (κ × α)) :
    Assoc.lookup a (Assoc.adjust k f l) =
      if k = a then Option.map f (Assoc.lookup a l) else Assoc.lookup a l := by
  induction l with
  | nil => simp [Assoc.adjust, Assoc.lookup]
  | cons e rest ih =>
    by_cases h1 : e.1 = k
    · by_cases h2 : k = a
      · simp [Assoc.adjust, Assoc.lookup, h1, h2, h1.trans h2]
      · simp [Assoc.adjust, Assoc.lookup, h1, h2, fun h => h2 (h1 ▸ h)]
    · by_cases h2 : e.1 = a
      · have h3 : ¬ k = a := fun h => h1 (h ▸ h2)
        have h4 : ¬ a = k := fun h => h3 h.symm
        simp [Assoc.adjust, Assoc.lookup, h1, h2, h3, h4]
      · simp [Assoc.adjust, Assoc.lookup, h1, h2, ih]

theorem Assoc.mem_insert {κ α : Type} [DecidableEq κ] {e : κ × α} {k : κ} {v : α}
    {l : List (κ × α)} (h : e ∈ Assoc.insert k v l) : e = (k, v) ∨ e ∈ l := by
  induction l with
  | nil => simpa [Assoc.insert] using h
  | cons e' rest ih =>
    by_cases h1 : e'.1 = k
    · simp only [Assoc.insert, h1, if_pos rfl] at h
      rcases List.mem_cons.mp h with h2 | h2
      · exact Or.inl h2
      · exact Or.inr (List.mem_cons_of_mem _ h2)
    · simp only [Assoc.insert, h1, if_neg h1] at h
      rcases List.mem_cons.mp h with h2 | h2
      · exact Or.inr (h2 ▸ List.mem_cons_self _ _)
      · rcases ih h2 with h3 | h3
        · exact Or.inl h3
        · exact Or.inr (List.mem_cons_of_mem _ h3)

theorem Assoc.mem_insert_of_mem {κ α : Type} [DecidableEq κ] {e : κ × α} {k : κ} {v : α}
    {l : List (κ × α)} (h : e ∈ l) (hk : e.1 ≠ k) : e ∈ Assoc.insert k v l := by
  induction l with
  | nil => cases h
  | cons e' rest ih =>
    rcases List.mem_cons.mp h with h1 | h1
    · subst h1
      simp only [Assoc.insert, if_neg hk]
      exact List.mem_cons_self _ _
    · by_cases h2 : e'.1 = k
      · simp only [Assoc.insert, if_pos h2]
        exact List.mem_cons_of_mem _ h1
      · simp only [Assoc.insert, if_neg h2]
        exact List.mem_cons_of_mem _ (ih h1)

theorem Assoc.self_mem_insert {κ α : Type} [DecidableEq κ] (k : κ) (v : α)
    (l : List (κ × α)) : (k, v) ∈ Assoc.insert k v l := by
  induction l with
  | nil => simp [Assoc.insert]
  | cons e rest ih =>
    by_cases h : e.1 = k
    · simp [Assoc.insert, h]
    · simp only [Assoc.insert, if_neg h]
      exact List.mem_cons_of_mem _ ih

theorem Assoc.adjust_of_idem {κ α : Type} [DecidableEq κ] {k : κ} {f : α → α}
    (hf : ∀ x, f (f x) = f x) (l : List (κ × α)) :
    Assoc.adjust k f (Assoc.adjust k f l) = Assoc.adjust k f l := by
  induction l with
  | nil => simp [Assoc.adjust]
  | cons e rest ih =>
    by_cases h : e.1 = k
    · simp [Assoc.adjust, h, hf]
    · simp [Assoc.adjust, h, ih]

theorem Assoc.mem_adjust {κ α : Type} [DecidableEq κ] {e : κ × α} {k : κ} {f : α → α}
    {l : List (κ × α)} (h : e ∈ Assoc.adjust k f l) : ∃ e' ∈ l, e.1 = e'.1 := by
  induction l with
  | nil => cases h
  | cons e' rest ih =>
    by_cases h1 : e'.1 = k
    · simp only [Assoc.adjust, if_pos h1] at h
      rcases List.mem_cons.mp h with h2 | h2
      · exact ⟨e', List.mem_cons_self _ _, by rw [h2]⟩
      · exact ⟨e, List.mem_cons_of_mem _ h2, rfl⟩
    · simp only [Assoc.adjust, if_neg h1] at h
      rcases List.mem_cons.mp h with h2 | h2
      · exact ⟨e', List.mem_cons_self _ _, by rw [h2]⟩
      · rcases ih h2 with ⟨e'', he'', heq⟩
        exact ⟨e'', List.mem_cons_of_mem _ he'', heq⟩

/-! Lemmas about `set_task_completed`. -/

theorem set_task_completed_of_absent {tid : String} {l : List Task}
    (h : ∀ t ∈ l, t.id ≠ tid) : set_task_completed tid l = l := by
  induction l with
  | nil => rfl
  | cons t rest ih =>
    have ht : t.id ≠ tid := h t (List.mem_cons_self _ _)
    simp only [set_task_completed, beq_iff_eq, if_neg ht]
    rw [ih (fun t' h' => h t' (List.mem_cons_of_mem _ h'))]

theorem set_task_completed_idem (tid : String) (l : List Task) :
    set_task_completed tid (set_task_completed tid l) = set_task_completed tid l := by
  induction l with
  | nil => rfl
  | cons t rest ih =>
    by_cases h : t.id = tid
    · simp [set_task_completed, h]
    · simp [set_task_completed, h, ih]

theorem any_completed_set_task {tid : String} {l : List Task}
    (h : ∃ t ∈ l, t.id = tid) :
    (set_task_completed tid l).any
      (fun t => t.id == tid && t.status == TaskStatus.Completed) = true := by
  induction l with
  | nil => rcases h with ⟨t, ht, _⟩; cases ht
  | cons t rest ih =>
    by_cases h1 : t.id = tid
    · simp [set_task_completed, h1]
    · rcases h with ⟨t', ht', hid⟩
      rcases List.mem_cons.mp ht' with h2 | h2
      · exact absurd (h2 ▸ hid) h1
      · simp [set_task_completed, h1, ih ⟨t', h2, hid⟩]

theorem mem_set_task_completed_of_completed (tid : String) {l : List Task} {t : Task}
    (ht : t ∈ l) (hc : t.status = TaskStatus.Completed) :
    ∃ t' ∈ set_task_completed tid l, t'.id = t.id ∧ t'.status = TaskStatus.Completed := by
  induction l with
  | nil => cases ht
  | cons u rest ih =>
    by_cases h1 : u.id = tid
    · simp only [set_task_completed, beq_iff_eq, if_pos h1]
      rcases List.mem_cons.mp ht with h2 | h2
      · subst h2
        exact ⟨{ t with status := TaskStatus.Completed }, List.mem_cons_self _ _, rfl, rfl⟩
      · exact ⟨t, List.mem_cons_of_mem _ h2, rfl, hc⟩
    · simp only [set_task_completed, beq_iff_eq, if_neg h1]
      rcases List.mem_cons.mp ht with h2 | h2
      · subst h2
        exact ⟨t, List.mem_cons_self _ _, rfl, hc⟩
      · rcases ih h2 with ⟨t', ht', hid, hst⟩
        exact ⟨t', List.mem_cons_of_mem _ ht', hid, hst⟩

theorem any_gate_set_task {s tid : String} {l : List Task}
    (h : l.any (fun t => t.id == s && t.status == TaskStatus.Completed) = true) :
    (set_task_completed tid l).any
      (fun t => t.id == s && t.status == TaskStatus.Completed) = true := by
  rcases List.any_eq_true.mp h with ⟨t, ht, hgate⟩
  simp only [Bool.and_eq_true, beq_iff_eq] at hgate
  rcases mem_set_task_completed_of_completed tid ht hgate.2 with ⟨t', ht', hid, hst⟩
  exact List.any_eq_true.mpr ⟨t', ht', by simp [hid, hgate.1, hst]⟩

/-! Characterizations of the readiness predicate. -/

theorem length_filter_agent_pos_iff (a : AgentId) (l : List (String × ApiPublished)) :
    0 < ((l.map Prod.snd).filter (fun api => api.agent == a)).length ↔
      ∃ e ∈ l, e.2.agent = a := by
  induction l with
  | nil => simp
  | cons e rest ih =>
    by_cases h : e.2.agent = a
    · simp [h]
    · simp [h, ih]

theorem can_start_agent3_iff (c : ExecutionCoordinator) :
    c.can_agent_start AgentId.Agent3 = true ↔
      ∃ e ∈ c.api_registry.apis, e.2.agent = AgentId.Agent2 := by
  simp only [ExecutionCoordinator.can_agent_start, ApiRegistry.get_agent_apis,
    decide_eq_true_eq]
  exact length_filter_agent_pos_iff AgentId.Agent2 c.api_registry.apis

theorem can_start_agent4_iff (c : ExecutionCoordinator) :
    c.can_agent_start AgentId.Agent4 = true ↔
      ∃ t ∈ c.plan.tasks, t.id = "agent3-2" ∧ t.status = TaskStatus.Completed := by
  simp [ExecutionCoordinator.can_agent_start, List.any_eq_true]

theorem can_start3_congr {c c' : ExecutionCoordinator} (h : c'.api_registry = c.api_registry) :
    c'.can_agent_start AgentId.Agent3 = c.can_agent_start AgentId.Agent3 := by
  simp [ExecutionCoordinator.can_agent_start, h]

theorem can_start4_congr {c c' : ExecutionCoordinator} (h : c'.plan.tasks = c.plan.tasks) :
    c'.can_agent_start AgentId.Agent4 = c.can_agent_start AgentId.Agent4 := by
  simp [ExecutionCoordinator.can_agent_start, h]

/-! Infrastructure for the reachable-state dependency-gate invariant (C2). -/

/-- A message is status-benign when it is not a `StatusUpdate` forcing
Agent3 or Agent4 directly into `Running` or `Completed` (the transition
table makes `StatusUpdate` an unconditional overwrite). -/
def benign_status_update : CoordinationMessage → Bool
  | .StatusUpdate a s =>
    !((a == AgentId.Agent3 || a == AgentId.Agent4) &&
      (s == AgentStatus.Running || s == AgentStatus.Completed))
  | _ => true

/-- The capability names published by a message sequence, in order. -/
def api_names : List CoordinationMessage → List String
  | [] => []
  | .ApiPublished api :: rest => api.api_name :: api_names rest
  | .AgentReady _ :: rest => api_names rest
  | .TaskCompleted _ _ :: rest => api_names rest
  | .CoordinationRequest _ _ _ _ :: rest => api_names rest
  | .CoordinationResponse _ _ _ :: rest => api_names rest
  | .StatusUpdate _ _ :: rest => api_names rest

/-- The dependency-gate invariant of the coordinator: a statically gated
worker (Agent3 on Agent2's capability, Agent4 on task "agent3-2") is
`Running` or `Completed` only while its gating condition, as evaluated by
`can_agent_start`, is satisfied. -/
def dependency_gates_respected (c : ExecutionCoordinator) : Prop :=
  ((Assoc.lookup AgentId.Agent3 c.agent_status = some AgentStatus.Running ∨
    Assoc.lookup AgentId.Agent3 c.agent_status = some AgentStatus.Completed) →
      c.can_agent_start AgentId.Agent3 = true) ∧
  ((Assoc.lookup AgentId.Agent4 c.agent_status = some AgentStatus.Running ∨
    Assoc.lookup AgentId.Agent4 c.agent_status = some AgentStatus.Completed) →
      c.can_agent_start AgentId.Agent4 = true)

theorem handle_coordination_request_ok {c c' : ExecutionCoordinator}
    {r ta : AgentId} {tm why : String}
    (h : c.handle_coordination_request r ta tm why = .ok c') : c' = c := by
  unfold ExecutionCoordinator.handle_coordination_request at h
  split at h
  · split at h
    · cases h; rfl
    · split at h
      · cases h
      · cases h; rfl
  · cases h; rfl

theorem process_message_registry {c c' : ExecutionCoordinator} {m : CoordinationMessage}
    (hstep : c.process_message m = .ok c') :
    c'.api_registry = c.api_registry ∨
      ∃ api, m = .ApiPublished api ∧ c'.api_registry = c.api_registry.register api := by
  cases m with
  | AgentReady a =>
    left
    simp only [ExecutionCoordinator.process_message,
      ExecutionCoordinator.handle_agent_ready] at hstep
    split at hstep <;> (cases hstep; rfl)
  | ApiPublished api =>
    right
    refine ⟨api, rfl, ?_⟩
    cases hstep; rfl
  | TaskCompleted a tid =>
    left
    cases hstep; rfl
  | CoordinationRequest r ta tm why =>
    left
    simp only [ExecutionCoordinator.process_message] at hstep
    rw [handle_coordination_request_ok hstep]
  | CoordinationResponse rid ap why =>
    left
    cases hstep; rfl
  | StatusUpdate a s =>
    left
    cases hstep; rfl

theorem gates_insert_status {c : ExecutionCoordinator} {a : AgentId} {s : AgentStatus}
    (hinv : dependency_gates_respected c)
    (h3 : a = AgentId.Agent3 → (s = AgentStatus.Running ∨ s = AgentStatus.Completed) →
      c.can_agent_start AgentId.Agent3 = true)
    (h4 : a = AgentId.Agent4 → (s = AgentStatus.Running ∨ s = AgentStatus.Completed) →
      c.can_agent_start AgentId.Agent4 = true) :
    dependency_gates_respected { c with agent_status := Assoc.insert a s c.agent_status } := by
  constructor
  · intro h
    show c.can_agent_start AgentId.Agent3 = true
    simp only [Assoc.lookup_insert] at h
    by_cases ha : a = AgentId.Agent3
    · rw [if_pos ha] at h
      refine h3 ha ?_
      rcases h with h | h
      · exact Or.inl (Option.some.inj h)
      · exact Or.inr (Option.some.inj h)
    · rw [if_neg ha] at h
      exact hinv.1 h
  · intro h
    show c.can_agent_start AgentId.Agent4 = true
    simp only [Assoc.lookup_insert] at h
    by_cases ha : a = AgentId.Agent4
    · rw [if_pos ha] at h
      refine h4 ha ?_
      rcases h with h | h
      · exact Or.inl (Option.some.inj h)
      · exact Or.inr (Option.some.inj h)
    · rw [if_neg ha] at h
      exact hinv.2 h

theorem process_message_gates {c c' : ExecutionCoordinator} {m : CoordinationMessage}
    (hstep : c.process_message m = .ok c')
    (hbenign : benign_status_update m = true)
    (hfresh : ∀ api : ApiPublished, m = .ApiPublished api →
      ∀ e ∈ c.api_registry.apis, e.1 ≠ api.api_name)
    (hinv : dependency_gates_respected c) :
    dependency_gates_respected c' := by
  cases m with
  | AgentReady a =>
    simp only [ExecutionCoordinator.process_message,
      ExecutionCoordinator.handle_agent_ready] at hstep
    split at hstep
    next hc =>
      cases hstep
      exact gates_insert_status hinv (fun ha _ => ha ▸ hc) (fun ha _ => ha ▸ hc)
    next hc =>
      cases hstep
      refine gates_insert_status hinv ?_ ?_ <;>
        (intro _ hs; rcases hs with hs | hs <;> cases hs)
  | ApiPublished api =>
    simp only [ExecutionCoordinator.process_message,
      ExecutionCoordinator.handle_api_published] at hstep
    by_cases hA2 : (api.agent == AgentId.Agent2) = true
    · rw [if_pos hA2] at hstep
      cases hstep
      constructor
      · intro _
        rw [can_start_agent3_iff]
        exact ⟨(api.api_name, api), Assoc.self_mem_insert _ _ _, beq_iff_eq.mp hA2⟩
      · intro h
        show c.can_agent_start AgentId.Agent4 = true
        simp only [Assoc.lookup_adjust] at h
        rw [if_neg (by decide : ¬(AgentId.Agent3 = AgentId.Agent4))] at h
        exact hinv.2 h
    · rw [if_neg hA2] at hstep
      cases hstep
      constructor
      · intro h
        have h1 := hinv.1 h
        rw [can_start_agent3_iff] at h1
        rw [can_start_agent3_iff]
        rcases h1 with ⟨e, he, hag⟩
        exact ⟨e, Assoc.mem_insert_of_mem he (hfresh api rfl e he), hag⟩
      · intro h
        show c.can_agent_start AgentId.Agent4 = true
        exact hinv.2 h
  | TaskCompleted a tid =>
    simp only [ExecutionCoordinator.process_message,
      ExecutionCoordinator.handle_task_completed] at hstep
    by_cases hguard : (a == AgentId.Agent3 && tid == "agent3-2") = true
    · rw [if_pos hguard] at hstep
      cases hstep
      constructor
      · intro h
        show c.can_agent_start AgentId.Agent3 = true
        simp only [Assoc.lookup_adjust] at h
        rw [if_neg (by decide : ¬(AgentId.Agent4 = AgentId.Agent3))] at h
        exact hinv.1 h
      · intro h
        simp only [Assoc.lookup_adjust, if_true] at h
        rcases hold : Assoc.lookup AgentId.Agent4 c.agent_status with _ | st
        · rw [hold] at h; simp at h
        · rw [hold] at h
          simp only [Option.map_some'] at h
          have hst : st = AgentStatus.Running ∨ st = AgentStatus.Completed := by
            by_cases hw : (st == AgentStatus.WaitingForDependency AgentId.Agent3) = true
            · rw [if_pos hw] at h
              rcases h with h | h <;> simp at h
            · rw [if_neg hw] at h
              rcases h with h | h
              · exact Or.inl (Option.some.inj h)
              · exact Or.inr (Option.some.inj h)
          have h4 : c.can_agent_start AgentId.Agent4 = true := by
            refine hinv.2 ?_
            rw [hold]
            rcases hst with hst | hst
            · exact Or.inl (by rw [hst])
            · exact Or.inr (by rw [hst])
          rw [can_start_agent4_iff] at h4
          rw [can_start_agent4_iff]
          rcases h4 with ⟨t, ht, hid, hstat⟩
          rcases mem_set_task_completed_of_completed tid ht hstat with ⟨t', ht', hid', hst'⟩
          exact ⟨t', ht', hid'.trans hid, hst'⟩
    · rw [if_neg hguard] at hstep
      cases hstep
      constructor
      · intro h
        show c.can_agent_start AgentId.Agent3 = true
        exact hinv.1 h
      · intro h
        have h4 := hinv.2 h
        rw [can_start_agent4_iff] at h4
        rw [can_start_agent4_iff]
        rcases h4 with ⟨t, ht, hid, hstat⟩
        rcases mem_set_task_completed_of_completed tid ht hstat with ⟨t', ht', hid', hst'⟩
        exact ⟨t', ht', hid'.trans hid, hst'⟩
  | CoordinationRequest r ta tm why =>
    simp only [ExecutionCoordinator.process_message] at hstep
    rw [handle_coordination_request_ok hstep]
    exact hinv
  | CoordinationResponse rid ap why =>
    cases hstep
    exact hinv
  | StatusUpdate a s =>
    cases hstep
    simp only [benign_status_update, Bool.not_eq_true'] at hbenign
    refine gates_insert_status hinv ?_ ?_ <;>
      (intro ha hs; subst ha; rcases hs with hs | hs <;> subst hs <;> simp at hbenign)

theorem api_names_tail {x : String} {m : CoordinationMessage} {rest : List CoordinationMessage}
    (h : x ∉ api_names (m :: rest)) : x ∉ api_names rest := by
  cases m with
  | ApiPublished api =>
    intro hx
    exact h (by simp [api_names, hx])
  | AgentReady a => exact h
  | TaskCompleted a tid => exact h
  | CoordinationRequest r ta tm why => exact h
  | CoordinationResponse rid ap why => exact h
  | StatusUpdate a s => exact h

theorem api_names_nodup_tail {m : CoordinationMessage} {rest : List CoordinationMessage}
    (h : (api_names (m :: rest)).Nodup) : (api_names rest).Nodup := by
  cases m with
  | ApiPublished api => exact (List.nodup_cons.mp h).2
  | AgentReady a => exact h
  | TaskCompleted a tid => exact h
  | CoordinationRequest r ta tm why => exact h
  | CoordinationResponse rid ap why => exact h
  | StatusUpdate a s => exact h

theorem run_preserves_gates {msgs : List CoordinationMessage} {c c' : ExecutionCoordinator}
    (hrun : c.process_coordination msgs = .ok c')
    (hbenign : ∀ m ∈ msgs, benign_status_update m = true)
    (hnodup : (api_names msgs).Nodup)
    (hdisj : ∀ e ∈ c.api_registry.apis, e.1 ∉ api_names msgs)
    (hinv : dependency_gates_respected c) :
    dependency_gates_respected c' := by
  induction msgs generalizing c with
  | nil => cases hrun; exact hinv
  | cons m rest ih =>
    simp only [ExecutionCoordinator.process_coordination] at hrun
    cases hm : c.process_message m with
    | error e => rw [hm] at hrun; cases hrun
    | ok c1 =>
      rw [hm] at hrun
      have hfresh : ∀ api : ApiPublished, m = .ApiPublished api →
          ∀ e ∈ c.api_registry.apis, e.1 ≠ api.api_name := by
        intro api hmeq e he
        have hd := hdisj e he
        subst hmeq
        simp only [api_names, List.mem_cons, not_or] at hd
        exact hd.1
      have hinv1 := process_message_gates hm (hbenign m (List.mem_cons_self _ _)) hfresh hinv
      have hdisj1 : ∀ e ∈ c1.api_registry.apis, e.1 ∉ api_names rest := by
        rcases process_message_registry hm with hreg | ⟨api, hmeq, hreg⟩
        · intro e he
          rw [hreg] at he
          exact api_names_tail (hdisj e he)
        · subst hmeq
          intro e he
          rw [hreg] at he
          rcases Assoc.mem_insert he with h1 | h1
          · have hn : api.api_name ∉ api_names rest :=
              (List.nodup_cons.mp (by simpa [api_names] using hnodup)).1
            rw [h1]
            exact hn
          · exact api_names_tail (hdisj e h1)
      exact ih hrun (fun m' hm' => hbenign m' (List.mem_cons_of_mem _ hm'))
        (api_names_nodup_tail hnodup) hdisj1 hinv1

theorem process_message_status_isSome {c c' : ExecutionCoordinator} {m : CoordinationMessage}
    (hstep : c.process_message m = .ok c') (a : AgentId)
    (h : (Assoc.lookup a c.agent_status).isSome = true) :
    (Assoc.lookup a c'.agent_status).isSome = true := by
  cases m with
  | AgentReady b =>
    simp only [ExecutionCoordinator.process_message,
      ExecutionCoordinator.handle_agent_ready] at hstep
    split at hstep <;>
      (cases hstep
       simp only [Assoc.lookup_insert]
       by_cases hb : b = a
       · rw [if_pos hb]; rfl
       · rw [if_neg hb]; exact h)
  | ApiPublished api =>
    simp only [ExecutionCoordinator.process_message,
      ExecutionCoordinator.handle_api_published] at hstep
    split at hstep
    · cases hstep
      simp only [Assoc.lookup_adjust]
      by_cases hb : AgentId.Agent3 = a
      · rw [if_pos hb]
        cases hl : Assoc.lookup a c.agent_status with
        | none => rw [hl] at h; cases h
        | some v => rfl
      · rw [if_neg hb]; exact h
    · cases hstep; exact h
  | TaskCompleted b tid =>
    simp only [ExecutionCoordinator.process_message,
      ExecutionCoordinator.handle_task_completed] at hstep
    split at hstep
    · cases hstep
      simp only [Assoc.lookup_adjust]
      by_cases hb : AgentId.Agent4 = a
      · rw [if_pos hb]
        cases hl : Assoc.lookup a c.agent_status with
        | none => rw [hl] at h; cases h
        | some v => rfl
      · rw [if_neg hb]; exact h
    · cases hstep; exact h
  | CoordinationRequest r ta tm why =>
    simp only [ExecutionCoordinator.process_message] at hstep
    rw [handle_coordination_request_ok hstep]
    exact h
  | CoordinationResponse rid ap why =>
    cases hstep; exact h
  | StatusUpdate b s =>
    cases hstep
    simp only [Assoc.lookup_insert]
    by_cases hb : b = a
    · rw [if_pos hb]; rfl
    · rw [if_neg hb]; exact h

theorem run_status_isSome {msgs : List CoordinationMessage} {c c' : ExecutionCoordinator}
    (hrun : c.process_coordination msgs = .ok c') (a : AgentId)
    (h : (Assoc.lookup a c.agent_status).isSome = true) :
    (Assoc.lookup a c'.agent_status).isSome = true := by
  induction msgs generalizing c with
  | nil => cases hrun; exact h
  | cons m rest ih =>
    simp only [ExecutionCoordinator.process_coordination] at hrun
    cases hm : c.process_message m with
    | error e => rw [hm] at hrun; cases hrun
    | ok c1 =>
      rw [hm] at hrun
      exact ih hrun (process_message_status_isSome hm a h)

/-! Concrete inputs used by counterexamples and witnesses. -/

/-- A plan with no roadmap, tasks, interface stubs or ownership records. -/
def empty_plan : ExecutionPlan := ⟨[], [], [], [], 0⟩

/-- A capability publication by Agent3. -/
def api_from_agent3 : ApiPublished :=
  ⟨AgentId.Agent3, "analysis", "src/lib/agent/analysis-pipeline.ts", "1.0", 0⟩

/-- A capability publication by Agent2. -/
def api_from_agent2 : ApiPublished :=
  ⟨AgentId.Agent2, "storage", "src-tauri/src/memory/api.rs", "1.0", 0⟩

/-- The coordinator state after a successful processing pass, or the start
state when the pass errors: a convenience for naming concrete run results. -/
def run_result (c : ExecutionCoordinator) (msgs : List CoordinationMessage) :
    ExecutionCoordinator :=
  match c.process_coordination msgs with
  | .ok c' => c'
  | .error _ => c

/-- In the freshly constructed coordinator the gated workers are waiting,
so the dependency-gate invariant holds vacuously, whatever the plan. -/
theorem initial_gates (p : ExecutionPlan) :
    dependency_gates_respected (ExecutionCoordinator.new p) := by
  constructor
  · intro h
    rcases h with h | h
    · exact absurd (show Assoc.lookup AgentId.Agent3 initial_agent_status =
        some AgentStatus.Running from h) (by decide)
    · exact absurd (show Assoc.lookup AgentId.Agent3 initial_agent_status =
        some AgentStatus.Completed from h) (by decide)
  · intro h
    rcases h with h | h
    · exact absurd (show Assoc.lookup AgentId.Agent4 initial_agent_status =
        some AgentStatus.Running from h) (by decide)
    · exact absurd (show Assoc.lookup AgentId.Agent4 initial_agent_status =
        some AgentStatus.Completed from h) (by decide)

/-- C1, counterexample: the claim quantifies over every publishing worker
`d`, but the source hardcodes the Agent2→Agent3 pair.  In the initial
state Agent4 is `WaitingForDependency(Agent3)`, yet processing a
`CapabilityPublished` whose worker is Agent3 leaves Agent4 waiting instead
of flipping it to `Pending` as the claim requires for `d = Agent3`,
`w = Agent4`. -/
theorem C1_counterexample :
    Assoc.lookup AgentId.Agent4 initial_coordinator.agent_status =
      some (AgentStatus.WaitingForDependency AgentId.Agent3) ∧
    (initial_coordinator.process_coordination
        [CoordinationMessage.ApiPublished api_from_agent3]).map
      (fun c => Assoc.lookup AgentId.Agent4 c.agent_status) =
      Except.ok (some (AgentStatus.WaitingForDependency AgentId.Agent3)) ∧
    some (AgentStatus.WaitingForDependency AgentId.Agent3) ≠ some AgentStatus.Pending :=
  ⟨by decide, by decide, by decide⟩

/-- C1, amended: processing a `CapabilityPublished` message touches only
the hardcoded Agent2→Agent3 pair: every worker other than Agent3 keeps its
status, and Agent3 flips to `Pending` (not directly to `Running`) exactly
when the publisher is Agent2 and Agent3's status is exactly
`WaitingForDependency(Agent2)`; otherwise Agent3 too is unchanged. -/
theorem C1_theorem (c : ExecutionCoordinator) (api : ApiPublished) (a : AgentId)
    (ha : a ≠ AgentId.Agent3) :
    (c.handle_api_published api).map (fun x => Assoc.lookup a x.agent_status) =
      Except.ok (Assoc.lookup a c.agent_status) ∧
    (c.handle_api_published api).map (fun x => Assoc.lookup AgentId.Agent3 x.agent_status) =
      Except.ok
        (if api.agent = AgentId.Agent2 ∧ Assoc.lookup AgentId.Agent3 c.agent_status =
            some (AgentStatus.WaitingForDependency AgentId.Agent2)
         then some AgentStatus.Pending
         else Assoc.lookup AgentId.Agent3 c.agent_status) := by
  constructor
  · simp only [ExecutionCoordinator.handle_api_published, Except.map]
    congr 1
    by_cases hA2 : (api.agent == AgentId.Agent2) = true
    · rw [if_pos hA2, Assoc.lookup_adjust, if_neg (fun h => ha h.symm)]
    · rw [if_neg hA2]
  · simp only [ExecutionCoordinator.handle_api_published, Except.map]
    congr 1
    by_cases hA2 : (api.agent == AgentId.Agent2) = true
    · rw [if_pos hA2, Assoc.lookup_adjust, if_pos rfl]
      by_cases hw : Assoc.lookup AgentId.Agent3 c.agent_status =
          some (AgentStatus.WaitingForDependency AgentId.Agent2)
      · rw [hw, if_pos ⟨beq_iff_eq.mp hA2, rfl⟩]
        simp
      · rw [if_neg (fun hand => hw hand.2)]
        cases hl : Assoc.lookup AgentId.Agent3 c.agent_status with
        | none => rfl
        | some st =>
          have hst : ¬ st = AgentStatus.WaitingForDependency AgentId.Agent2 :=
            fun hh => hw (by rw [hl, hh])
          simp only [Option.map_some']
          rw [if_neg (by simpa using hst)]
    · have hA2' : ¬ api.agent = AgentId.Agent2 := by simpa using hA2
      rw [if_neg hA2, if_neg (fun hand => hA2' hand.1)]

/-- C1, witness: instantiating the amended statement at the initial
coordinator, an Agent2 publication, and bystander Agent4. -/
theorem C1_witness :
    (initial_coordinator.handle_api_published api_from_agent2).map
        (fun x => Assoc.lookup AgentId.Agent4 x.agent_status) =
      Except.ok (Assoc.lookup AgentId.Agent4 initial_coordinator.agent_status) ∧
    (initial_coordinator.handle_api_published api_from_agent2).map
        (fun x => Assoc.lookup AgentId.Agent3 x.agent_status) =
      Except.ok
        (if api_from_agent2.agent = AgentId.Agent2 ∧
            Assoc.lookup AgentId.Agent3 initial_coordinator.agent_status =
              some (AgentStatus.WaitingForDependency AgentId.Agent2)
         then some AgentStatus.Pending
         else Assoc.lookup AgentId.Agent3 initial_coordinator.agent_status) :=
  C1_theorem initial_coordinator api_from_agent2 AgentId.Agent4 (by decide)

/-- C2, counterexample: `StatusUpdate` is an unconditional overwrite, so a
single `StatusUpdate(Agent3, Running)` message reaches a state where
Agent3 is `Running` while no Agent2 capability has been published
(`can_start(Agent3)` is false), violating the claimed invariant. -/
theorem C2_counterexample :
    (initial_coordinator.process_coordination
        [CoordinationMessage.StatusUpdate AgentId.Agent3 AgentStatus.Running]).map
      (fun c => (Assoc.lookup AgentId.Agent3 c.agent_status,
        c.can_agent_start AgentId.Agent3)) =
      Except.ok (some AgentStatus.Running, false) := by decide

/-- C2, amended: for message sequences that contain no `StatusUpdate`
forcing Agent3 or Agent4 directly into `Running`/`Completed` and in which
no two `CapabilityPublished` messages reuse a capability name (names are
expected to be published once; an overwrite can evict the Agent2 record),
every state reachable from the initial coordinator state keeps the static
dependency gates: Agent3 is `Running`/`Completed` only while an Agent2
capability record is registered, and Agent4 only while task "agent3-2" is
`Completed`. -/
theorem C2_theorem (p : ExecutionPlan) (msgs : List CoordinationMessage)
    (c' : ExecutionCoordinator)
    (hbenign : ∀ m ∈ msgs, benign_status_update m = true)
    (hnodup : (api_names msgs).Nodup)
    (hrun : (ExecutionCoordinator.new p).process_coordination msgs = .ok c') :
    dependency_gates_respected c' := by
  refine run_preserves_gates hrun hbenign hnodup ?_ (initial_gates p)
  intro e he
  cases he

/-- C2, witness: a run that publishes an Agent2 capability and then starts
Agent3 satisfies the gate invariant at its final state. -/
theorem C2_witness :
    dependency_gates_respected
      (run_result (ExecutionCoordinator.new empty_plan)
        [CoordinationMessage.ApiPublished api_from_agent2,
         CoordinationMessage.AgentReady AgentId.Agent3]) :=
  C2_theorem empty_plan
    [CoordinationMessage.ApiPublished api_from_agent2,
     CoordinationMessage.AgentReady AgentId.Agent3]
    (run_result (ExecutionCoordinator.new empty_plan)
      [CoordinationMessage.ApiPublished api_from_agent2,
       CoordinationMessage.AgentReady AgentId.Agent3])
    (by decide) (by decide) (by decide)

/-- C3, counterexample: the source has no `UnknownTask` error: processing
a `TaskCompleted` for a task id absent from the plan succeeds and leaves
the whole coordinator state unchanged, instead of returning an error as
the claim requires. -/
theorem C3_counterexample :
    initial_coordinator.plan.tasks.all (fun t => !(t.id == "no-such-task")) = true ∧
    initial_coordinator.process_coordination
        [CoordinationMessage.TaskCompleted AgentId.Agent1 "no-such-task"] =
      Except.ok initial_coordinator :=
  ⟨by decide, by decide⟩

/-- C3, amended: processing a `TaskCompleted` whose task id is absent from
the plan is silently ignored: the pass succeeds and the plan's task list
is unchanged (no `UnknownTask` propagate-and-abort condition exists). -/
theorem C3_theorem (c : ExecutionCoordinator) (a : AgentId) (tid : String)
    (habsent : ∀ t ∈ c.plan.tasks, t.id ≠ tid) :
    (c.process_coordination [CoordinationMessage.TaskCompleted a tid]).map
      (fun x => x.plan.tasks) = Except.ok c.plan.tasks := by
  simp only [ExecutionCoordinator.process_coordination, ExecutionCoordinator.process_message,
    ExecutionCoordinator.handle_task_completed, Except.map]
  congr 1
  exact set_task_completed_of_absent habsent

/-- C3, witness: instantiating the amended statement at the initial
coordinator and an unknown task id. -/
theorem C3_witness :
    (initial_coordinator.process_coordination
        [CoordinationMessage.TaskCompleted AgentId.Agent1 "no-such-task"]).map
      (fun x => x.plan.tasks) = Except.ok initial_coordinator.plan.tasks :=
  C3_theorem initial_coordinator AgentId.Agent1 "no-such-task" (by decide)

/-- C4: the readiness predicate, characterized per worker: Orchestrator
always may start; Agent1/Agent2/Agent5/Agent6 exactly when the
Orchestrator's status is `Running` or `Completed`; Agent3 exactly when the
capability registry holds a record published by Agent2; Agent4 exactly
when the plan has a task "agent3-2" with status `Completed`. -/
theorem C4_theorem (c : ExecutionCoordinator) :
    c.can_agent_start AgentId.Orchestrator = true ∧
    (c.can_agent_start AgentId.Agent1 = true ↔
      (Assoc.lookup AgentId.Orchestrator c.agent_status = some AgentStatus.Running ∨
       Assoc.lookup AgentId.Orchestrator c.agent_status = some AgentStatus.Completed)) ∧
    (c.can_agent_start AgentId.Agent2 = true ↔
      (Assoc.lookup AgentId.Orchestrator c.agent_status = some AgentStatus.Running ∨
       Assoc.lookup AgentId.Orchestrator c.agent_status = some AgentStatus.Completed)) ∧
    (c.can_agent_start AgentId.Agent5 = true ↔
      (Assoc.lookup AgentId.Orchestrator c.agent_status = some AgentStatus.Running ∨
       Assoc.lookup AgentId.Orchestrator c.agent_status = some AgentStatus.Completed)) ∧
    (c.can_agent_start AgentId.Agent6 = true ↔
      (Assoc.lookup AgentId.Orchestrator c.agent_status = some AgentStatus.Running ∨
       Assoc.lookup AgentId.Orchestrator c.agent_status = some AgentStatus.Completed)) ∧
    (c.can_agent_start AgentId.Agent3 = true ↔
      ∃ e ∈ c.api_registry.apis, e.2.agent = AgentId.Agent2) ∧
    (c.can_agent_start AgentId.Agent4 = true ↔
      ∃ t ∈ c.plan.tasks, t.id = "agent3-2" ∧ t.status = TaskStatus.Completed) := by
  refine ⟨rfl, ?_, ?_, ?_, ?_, can_start_agent3_iff c, can_start_agent4_iff c⟩
  all_goals
    cases hl : Assoc.lookup AgentId.Orchestrator c.agent_status with
    | none => simp [ExecutionCoordinator.can_agent_start, hl]
    | some st => cases st <;> simp [ExecutionCoordinator.can_agent_start, hl]

/-- C5: a `CoordinationRequest` against a registered path: when the
recorded owner differs from the requester the pass fails with the
ownership-violation error; when the requester is the owner it succeeds as
a no-op; and every successful outcome leaves the coordinator (and so the
ownership registry) unchanged. -/
theorem C5_theorem (c : ExecutionCoordinator) (r ta o : AgentId) (p why : String)
    (howner : c.ownership.get_owner p = some o) :
    (o ≠ r → c.handle_coordination_request r ta p why =
      Except.error ("Agent " ++ o.debugName ++ " does not own module " ++ p)) ∧
    (o = r → c.handle_coordination_request r ta p why = Except.ok c) ∧
    (∀ x, c.handle_coordination_request r ta p why = Except.ok x → x = c) := by
  refine ⟨?_, ?_, fun x h => handle_coordination_request_ok h⟩
  · intro hor
    unfold ExecutionCoordinator.handle_coordination_request
    simp only [howner]
    rw [if_neg (by simpa using hor)]
    have hcm : c.ownership.can_modify r p = false := by
      unfold OwnershipManager.get_owner at howner
      cases hrec : Assoc.lookup p c.ownership.ownership_map with
      | none => rw [hrec] at howner; cases howner
      | some rec =>
        rw [hrec] at howner
        simp only [Option.map_some'] at howner
        have ho : rec.owner = o := Option.some.inj howner
        unfold OwnershipManager.can_modify
        simp only [hrec]
        have hne : (rec.owner == r) = false := by
          rw [ho]
          exact beq_eq_false_iff_ne.mpr hor
        simp [hne]
    rw [if_pos (by simp [hcm])]
  · intro hor
    subst hor
    unfold ExecutionCoordinator.handle_coordination_request
    simp only [howner]
    rw [if_pos (by simp)]

/-- C5, witness: on the default plan "src-tauri/src/memory" is registered
to Agent2; a request by Agent1 errors, a request by Agent2 is a no-op. -/
theorem C5_witness :
    (AgentId.Agent2 ≠ AgentId.Agent1 →
      initial_coordinator.handle_coordination_request AgentId.Agent1 AgentId.Agent2
          "src-tauri/src/memory" "sync" =
        Except.error ("Agent " ++ AgentId.debugName AgentId.Agent2 ++
          " does not own module " ++ "src-tauri/src/memory")) ∧
    (AgentId.Agent2 = AgentId.Agent1 →
      initial_coordinator.handle_coordination_request AgentId.Agent1 AgentId.Agent2
          "src-tauri/src/memory" "sync" = Except.ok initial_coordinator) ∧
    (∀ x, initial_coordinator.handle_coordination_request AgentId.Agent1 AgentId.Agent2
        "src-tauri/src/memory" "sync" = Except.ok x → x = initial_coordinator) :=
  C5_theorem initial_coordinator AgentId.Agent1 AgentId.Agent2 AgentId.Agent2
    "src-tauri/src/memory" "sync" (by decide)

/-- C6: `can_modify(worker, path)` holds exactly when the path is
unregistered (default allow) or the registered record's owner is the
worker; a registered record owned by someone else denies modification
regardless of its `shared` flag. -/
theorem C6_theorem (m : OwnershipManager) (w : AgentId) (p : String) :
    (m.can_modify w p = true ↔
      (Assoc.lookup p m.ownership_map = none ∨
       ∃ rec, Assoc.lookup p m.ownership_map = some rec ∧ rec.owner = w)) ∧
    (∀ rec, Assoc.lookup p m.ownership_map = some rec → rec.owner ≠ w →
      m.can_modify w p = false) := by
  constructor
  · unfold OwnershipManager.can_modify
    cases hrec : Assoc.lookup p m.ownership_map with
    | none => simp
    | some rec =>
      simp only [Bool.or_eq_true, Bool.and_eq_true, beq_iff_eq]
      constructor
      · intro h
        refine Or.inr ⟨rec, rfl, ?_⟩
        rcases h with h | ⟨_, h⟩ <;> exact h
      · rintro (h | ⟨rec', hr, hw⟩)
        · cases h
        · cases Option.some.inj hr
          exact Or.inl hw
  · intro rec hrec hw
    unfold OwnershipManager.can_modify
    simp only [hrec]
    have hne : (rec.owner == w) = false := beq_eq_false_iff_ne.mpr hw
    simp [hne]

/-- A one-record manager whose single path is registered `shared` to
Agent2, used to witness that `shared` does not relax the modify check. -/
def shared_demo_manager : OwnershipManager :=
  ⟨[("shared-path", ⟨"shared-path", AgentId.Agent2, "shared demo", true⟩)]⟩

/-- C6, witness: on a `shared` record owned by Agent2, Agent1 is still
denied modification. -/
theorem C6_witness :
    shared_demo_manager.can_modify AgentId.Agent1 "shared-path" = false :=
  (C6_theorem shared_demo_manager AgentId.Agent1 "shared-path").2
    ⟨"shared-path", AgentId.Agent2, "shared demo", true⟩ (by decide) (by decide)

/-- C7: processing `TaskCompleted(w, id)` for a task present in the plan
is idempotent: after one processing the task reads `Completed`, and
processing the same message again from the resulting state returns that
state unchanged (statuses are not reverted, the unblocking is not
re-triggered). -/
theorem C7_theorem (c : ExecutionCoordinator) (w : AgentId) (tid : String)
    (hpresent : ∃ t ∈ c.plan.tasks, t.id = tid)
    (c1 : ExecutionCoordinator) (h1 : c.handle_task_completed w tid = .ok c1) :
    c1.plan.tasks.any (fun t => t.id == tid && t.status == TaskStatus.Completed) = true ∧
    c1.handle_task_completed w tid = .ok c1 := by
  cases h1
  constructor
  · exact any_completed_set_task hpresent
  · have hf : ∀ st : AgentStatus,
        (fun st0 => if (st0 == AgentStatus.WaitingForDependency AgentId.Agent3) = true
          then AgentStatus.Pending else st0)
        ((fun st0 => if (st0 == AgentStatus.WaitingForDependency AgentId.Agent3) = true
          then AgentStatus.Pending else st0) st) =
        (fun st0 => if (st0 == AgentStatus.WaitingForDependency AgentId.Agent3) = true
          then AgentStatus.Pending else st0) st := by
      intro st
      by_cases hw : (st == AgentStatus.WaitingForDependency AgentId.Agent3) = true
      · simp [hw]
      · simp [hw]
    by_cases hguard : (w == AgentId.Agent3 && tid == "agent3-2") = true
    · simp only [ExecutionCoordinator.handle_task_completed, hguard, if_true,
        set_task_completed_idem]
      rw [Assoc.adjust_of_idem hf]
    · simp [ExecutionCoordinator.handle_task_completed, hguard, set_task_completed_idem]

/-- C7, witness: instantiating the idempotence statement at the initial
coordinator and `TaskCompleted(Agent3, "agent3-2")`. -/
theorem C7_witness :
    (run_result initial_coordinator
        [CoordinationMessage.TaskCompleted AgentId.Agent3 "agent3-2"]).plan.tasks.any
      (fun t => t.id == "agent3-2" && t.status == TaskStatus.Completed) = true ∧
    (run_result initial_coordinator
        [CoordinationMessage.TaskCompleted AgentId.Agent3 "agent3-2"]).handle_task_completed
        AgentId.Agent3 "agent3-2" =
      .ok (run_result initial_coordinator
        [CoordinationMessage.TaskCompleted AgentId.Agent3 "agent3-2"]) :=
  C7_theorem initial_coordinator AgentId.Agent3 "agent3-2" (by decide) _ (by rfl)

/-- C8, counterexample: `create_execution_plan` stamps `created_at` with
the current clock reading (`Utc::now()` in the source, the `now` parameter
here), so two calls at distinct instants return unequal plans — the call
is not a deterministic function of no input. -/
theorem C8_counterexample :
    (create_execution_plan 0).created_at = 0 ∧
    (create_execution_plan 1).created_at = 1 ∧
    create_execution_plan 0 ≠ create_execution_plan 1 := by
  refine ⟨rfl, rfl, ?_⟩
  intro h
  have h0 := congrArg ExecutionPlan.created_at h
  simp [create_execution_plan] at h0

/-- C8, amended: apart from the `created_at` clock stamp, plan
construction is pure and deterministic: the roadmap, tasks, interface
stubs and file ownership of any two calls are equal, and `created_at` is
exactly the clock reading supplied to the call. -/
theorem C8_theorem (t1 t2 : Nat) :
    (create_execution_plan t1).roadmap = (create_execution_plan t2).roadmap ∧
    (create_execution_plan t1).tasks = (create_execution_plan t2).tasks ∧
    (create_execution_plan t1).interfaces = (create_execution_plan t2).interfaces ∧
    (create_execution_plan t1).file_ownership = (create_execution_plan t2).file_ownership ∧
    (create_execution_plan t1).created_at = t1 :=
  ⟨rfl, rfl, rfl, rfl, rfl⟩

/-- C9: the status map is total over the seven `AgentId` values: `new`
seeds every agent with the documented initial status, and every processed
message sequence preserves the presence of every agent's entry, so
`get_agent_status` returns `some` in every reachable state. -/
theorem C9_theorem (p : ExecutionPlan) (msgs : List CoordinationMessage)
    (c' : ExecutionCoordinator)
    (hrun : (ExecutionCoordinator.new p).process_coordination msgs = .ok c') :
    (∀ a : AgentId, ((c'.get_agent_status a).isSome) = true) ∧
    (ExecutionCoordinator.new p).get_agent_status AgentId.Orchestrator =
      some AgentStatus.Running ∧
    (ExecutionCoordinator.new p).get_agent_status AgentId.Agent1 = some AgentStatus.Pending ∧
    (ExecutionCoordinator.new p).get_agent_status AgentId.Agent2 = some AgentStatus.Pending ∧
    (ExecutionCoordinator.new p).get_agent_status AgentId.Agent3 =
      some (AgentStatus.WaitingForDependency AgentId.Agent2) ∧
    (ExecutionCoordinator.new p).get_agent_status AgentId.Agent4 =
      some (AgentStatus.WaitingForDependency AgentId.Agent3) ∧
    (ExecutionCoordinator.new p).get_agent_status AgentId.Agent5 = some AgentStatus.Pending ∧
    (ExecutionCoordinator.new p).get_agent_status AgentId.Agent6 = some AgentStatus.Pending := by
  refine ⟨?_, rfl, rfl, rfl, rfl, rfl, rfl, rfl⟩
  intro a
  refine run_status_isSome hrun a ?_
  cases a <;> rfl

/-- C9, witness: instantiating totality at the default plan and a short
run that moves Agent1 and overwrites a status. -/
theorem C9_witness :
    (∀ a : AgentId, (((run_result initial_coordinator
        [CoordinationMessage.AgentReady AgentId.Agent1,
         CoordinationMessage.StatusUpdate AgentId.Agent1 AgentStatus.Completed]).get_agent_status
        a).isSome) = true) ∧
    initial_coordinator.get_agent_status AgentId.Orchestrator = some AgentStatus.Running ∧
    initial_coordinator.get_agent_status AgentId.Agent1 = some AgentStatus.Pending ∧
    initial_coordinator.get_agent_status AgentId.Agent2 = some AgentStatus.Pending ∧
    initial_coordinator.get_agent_status AgentId.Agent3 =
      some (AgentStatus.WaitingForDependency AgentId.Agent2) ∧
    initial_coordinator.get_agent_status AgentId.Agent4 =
      some (AgentStatus.WaitingForDependency AgentId.Agent3) ∧
    initial_coordinator.get_agent_status AgentId.Agent5 = some AgentStatus.Pending ∧
    initial_coordinator.get_agent_status AgentId.Agent6 = some AgentStatus.Pending :=
  C9_theorem (create_execution_plan 0)
    [CoordinationMessage.AgentReady AgentId.Agent1,
     CoordinationMessage.StatusUpdate AgentId.Agent1 AgentStatus.Completed]
    (run_result initial_coordinator
      [CoordinationMessage.AgentReady AgentId.Agent1,
       CoordinationMessage.StatusUpdate AgentId.Agent1 AgentStatus.Completed])
    (by decide)

/-- C10: task completion is not authenticated against task ownership:
`TaskCompleted(a, t)` for a task present in the plan marks it `Completed`
whatever agent `a` reports it; hence after any agent reports "agent3-2",
`can_start(Agent4)` holds — while the eager status flip of Agent4 happens
only when the reporter is Agent3 (any other reporter leaves every status
unchanged). -/
theorem C10_theorem (c : ExecutionCoordinator) (a : AgentId) (tid : String)
    (hpresent : ∃ t ∈ c.plan.tasks, t.id = tid) :
    ((c.handle_task_completed a tid).map
      (fun x => x.plan.tasks.any (fun t => t.id == tid && t.status == TaskStatus.Completed)) =
      Except.ok true) ∧
    (tid = "agent3-2" →
      (c.handle_task_completed a tid).map (fun x => x.can_agent_start AgentId.Agent4) =
        Except.ok true) ∧
    (a ≠ AgentId.Agent3 →
      (c.handle_task_completed a tid).map (fun x => x.agent_status) =
        Except.ok c.agent_status) := by
  refine ⟨?_, ?_, ?_⟩
  · simp only [ExecutionCoordinator.handle_task_completed, Except.map]
    exact congrArg Except.ok (any_completed_set_task hpresent)
  · intro htid
    subst htid
    simp only [ExecutionCoordinator.handle_task_completed, Except.map]
    exact congrArg Except.ok (any_completed_set_task hpresent)
  · intro ha
    have hg : (a == AgentId.Agent3 && tid == "agent3-2") = false := by
      have : (a == AgentId.Agent3) = false := beq_eq_false_iff_ne.mpr ha
      simp [this]
    simp only [ExecutionCoordinator.handle_task_completed, Except.map, hg]
    rfl

/-- C10, witness: Agent1 (not the owner, Agent3) reports "agent3-2" on the
default plan: the task completes, Agent4 becomes startable, and no status
changes. -/
theorem C10_witness :
    ((initial_coordinator.handle_task_completed AgentId.Agent1 "agent3-2").map
      (fun x => x.plan.tasks.any
        (fun t => t.id == "agent3-2" && t.status == TaskStatus.Completed)) =
      Except.ok true) ∧
    ("agent3-2" = "agent3-2" →
      (initial_coordinator.handle_task_completed AgentId.Agent1 "agent3-2").map
        (fun x => x.can_agent_start AgentId.Agent4) = Except.ok true) ∧
    (AgentId.Agent1 ≠ AgentId.Agent3 →
      (initial_coordinator.handle_task_completed AgentId.Agent1 "agent3-2").map
        (fun x => x.agent_status) = Except.ok initial_coordinator.agent_status) :=
  C10_theorem initial_coordinator AgentId.Agent1 "agent3-2" (by decide)

end Runebook
